import Mathlib

/-!
# qt-pods-core: `PodManager` (src/podmanager.cpp)

A shallow embedding of `PodManager`.  The Qt classes the manager calls
(`QString::arg`, `QSettings`, `QFile`, `QProcess`, `QJsonDocument`) are library
code; they are modelled here by small executable definitions or taken from an
environment record, and every theorem quantifies over that environment.
-/

set_option linter.unusedVariables false

namespace PodManager

/-! ## `QString::arg` -/

/-- One piece of a scanned `QString`: a plain character or a place marker
`%N` / `%LN` together with the characters it is spelled with. -/
inductive ArgPiece where
  | text (c : Char)
  | escape (n : Nat) (raw : List Char)
deriving DecidableEq, Repr

/-- Scanner position inside a place marker. -/
inductive ScanState where
  | normal
  | percent
  | percentL
  | digit (d : Nat) (raw : List Char)
deriving DecidableEq, Repr

/-- Value of an ASCII decimal digit. -/
def digitValue (c : Char) : Option Nat :=
  if c.isDigit then some (c.toNat - 48) else none

/-- Scan for place markers (`findArgEscapes`): a marker is `%`, an optional
`L`, and one or two decimal digits.  After a `%` that starts no marker the
scan goes on with the character that follows it. -/
def scanArg : ScanState → List Char → List ArgPiece
  | .normal, [] => []
  | .normal, c :: cs =>
    if c = '%' then scanArg .percent cs else .text c :: scanArg .normal cs
  | .percent, [] => [.text '%']
  | .percent, c :: cs =>
    if c = 'L' then scanArg .percentL cs
    else match digitValue c with
      | some d => scanArg (.digit d ['%', c]) cs
      | none =>
        .text '%' :: (if c = '%' then scanArg .percent cs else .text c :: scanArg .normal cs)
  | .percentL, [] => [.text '%', .text 'L']
  | .percentL, c :: cs =>
    match digitValue c with
    | some d => scanArg (.digit d ['%', 'L', c]) cs
    | none =>
      .text '%' :: .text 'L' ::
        (if c = '%' then scanArg .percent cs else .text c :: scanArg .normal cs)
  | .digit d raw, [] => [.escape d raw]
  | .digit d raw, c :: cs =>
    match digitValue c with
    | some d2 => .escape (10 * d + d2) (raw ++ [c]) :: scanArg .normal cs
    | none =>
      .escape d raw ::
        (if c = '%' then scanArg .percent cs else .text c :: scanArg .normal cs)

/-- The lowest marker number among the pieces, if there is a marker. -/
def minEscape : List ArgPiece → Option Nat
  | [] => none
  | .text _ :: ps => minEscape ps
  | .escape n _ :: ps =>
    match minEscape ps with
    | none => some n
    | some m => some (min n m)

/-- Replace every marker numbered `m` by `a`; other pieces keep their spelling. -/
def replaceEscapes (m : Nat) (a : List Char) : List ArgPiece → List Char
  | [] => []
  | .text c :: ps => c :: replaceEscapes m a ps
  | .escape n raw :: ps =>
    (if n = m then a else raw) ++ replaceEscapes m a ps

/-- `QString::arg(const QString &a)`: every occurrence of the lowest-numbered
place marker is replaced by `a`; a string without marker is returned as is. -/
def arg (s : String) (a : String) : String :=
  match minEscape (scanArg .normal s.data) with
  | none => s
  | some m => ⟨replaceEscapes m a.data (scanArg .normal s.data)⟩

/-! ## `QSettings` (INI format), seen through its key/value interface

A settings file is modelled by the key/value pairs `QSettings` reads from it,
in the order in which `QSettings` enumerates them.  Keys are paths whose
segments are separated by `/`; a section `[g]` of the file holds the keys
`g/...`. -/

/-- Position of the key normaliser: nothing emitted yet, inside a segment, or
after the slash(es) that follow a segment. -/
inductive KeyState where
  | start
  | inSegment
  | afterSlash
deriving DecidableEq, Repr

/-- `QSettingsPrivate::normalizedKey` on characters: leading and trailing
slashes are dropped and runs of slashes collapse to one. -/
def normalizeChars : KeyState → List Char → List Char
  | _, [] => []
  | .start, c :: cs =>
    if c = '/' then normalizeChars .start cs else c :: normalizeChars .inSegment cs
  | .inSegment, c :: cs =>
    if c = '/' then normalizeChars .afterSlash cs else c :: normalizeChars .inSegment cs
  | .afterSlash, c :: cs =>
    if c = '/' then normalizeChars .afterSlash cs else '/' :: c :: normalizeChars .inSegment cs

/-- `QSettingsPrivate::normalizedKey`. -/
def normalizedKey (key : String) : String :=
  ⟨normalizeChars .start key.data⟩

/-- `QString::startsWith`. -/
def startsWith (s p : String) : Bool :=
  p.data.isPrefixOf s.data

/-- A `QSettings` object: the stored pairs and the stack of open groups
(innermost first). -/
structure QSettings where
  map : List (String × String)
  groupStack : List String := []
deriving DecidableEq, Repr

namespace QSettings

/-- The prefix every key gets inside the open groups: each non-empty group name
followed by `/`. -/
def groupPrefix (q : QSettings) : String :=
  q.groupStack.foldr (fun g acc => if g = "" then acc else acc ++ g ++ "/") ""

/-- `QSettings::beginGroup`. -/
def beginGroup (q : QSettings) (pre : String) : QSettings :=
  { q with groupStack := normalizedKey pre :: q.groupStack }

/-- `QSettings::endGroup`. -/
def endGroup (q : QSettings) : QSettings :=
  { q with groupStack := q.groupStack.tail }

/-- `QSettingsPrivate::actualKey`. -/
def actualKey (q : QSettings) (key : String) : String :=
  q.groupPrefix ++ normalizedKey key

/-- First value stored under a key. -/
def lookupKey (k : String) : List (String × String) → Option String
  | [] => none
  | e :: es => if e.1 = k then some e.2 else lookupKey k es

/-- `QSettings::value(key).toString()`: the stored string, and the empty string
of an invalid `QVariant` when the key is not set. -/
def value (q : QSettings) (key : String) : String :=
  (lookupKey (q.actualKey key) q.map).getD ""

/-- Store a pair, replacing the pair of the same key when there is one. -/
def setEntry (k v : String) : List (String × String) → List (String × String)
  | [] => [(k, v)]
  | e :: es => if e.1 = k then (k, v) :: es else e :: setEntry k v es

/-- `QSettings::setValue`. -/
def setValue (q : QSettings) (key v : String) : QSettings :=
  { q with map := setEntry (q.actualKey key) v q.map }

/-- `QSettings::remove`: the key and all its sub-keys go; with an empty key
every key of the current group goes. -/
def remove (q : QSettings) (key : String) : QSettings :=
  let theKey := if normalizedKey key = "" then
      ((⟨q.groupPrefix.data.dropLast⟩ : String)) else q.groupPrefix ++ normalizedKey key
  let kept := q.map.filter (fun e => !(decide (e.1 = theKey) || startsWith e.1 (theKey ++ "/")))
  if theKey = "" then { q with map := [] } else { q with map := kept }

/-- The child group a key contributes below a prefix (`processChild`): the
segment up to the first `/` of what follows the prefix, when there is a `/`. -/
def childGroupOf (pre key : List Char) : Option String :=
  if pre.isPrefixOf key then
    let rest := key.drop pre.length
    if '/' ∈ rest then some ⟨rest.takeWhile (fun c => c ≠ '/')⟩ else none
  else none

/-- Append a name unless it is already listed. -/
def addUnique (r : List String) (g : String) : List String :=
  if g ∈ r then r else r ++ [g]

/-- `QSettings::childGroups`: the distinct groups directly below the current
group. -/
def childGroups (q : QSettings) : List String :=
  (q.map.filterMap (fun e => childGroupOf q.groupPrefix.data e.1.data)).foldl addUnique []

end QSettings

/-! ## Data and effects -/

/-- Modelled from the spec: the `Pod` record of pod.h, which is not among the
sources; it has the name and url of the submodule manifest and the four
metadata fields author/description/license/website, all strings that a
default-constructed pod leaves empty. -/
structure Pod where
  name : String := ""
  url : String := ""
  author : String := ""
  description : String := ""
  license : String := ""
  website : String := ""
deriving DecidableEq, Repr

/-- The signals `PodManager` emits. -/
inductive Signal where
  | isGitRepositoryFinished (repository : String) (result : Bool)
  | installPodFinished (repository : String) (pod : Pod) (success : Bool)
  | installPodsFinished (repository : String) (pods : List Pod) (success : Bool)
  | removePodFinished (repository : String) (podName : String) (success : Bool)
  | removePodsFinished (repository : String) (podNames : List String) (success : Bool)
  | updatePodFinished (repository : String) (podName : String) (success : Bool)
  | updatePodsFinished (repository : String) (podNames : List String) (success : Bool)
  | updateAllPodsFinished (repository : String) (success : Bool)
  | listInstalledPodsFinished (repository : String) (pods : List Pod)
  | listAvailablePodsFinished (sources : List String) (pods : List Pod)
  | generatePodsPriFinished (repository : String)
  | generatePodsSubdirsPriFinished (repository : String)
  | generateSubdirsProFinished (repository : String)
deriving DecidableEq, Repr

/-- The three generated build-description files of a repository: `pods.pri`,
`pods-subdirs.pri` and the umbrella `<directory name>.pro`. -/
inductive GeneratedFile where
  | podsPri
  | podsSubdirsPri
  | subdirsPro
deriving DecidableEq, Repr

/-- The files below the directory the `repository` argument designates, as far
as `PodManager` looks at them. -/
structure Files where
  git : Bool
  gitmodules : Option (List (String × String))
  podinfo : List (String × String)
  podsPri : Option String
  podsSubdirsPri : Option String
  subdirsPro : Option String
deriving DecidableEq, Repr

/-- Content of a generated file, `none` when the file does not exist. -/
def Files.text (fs : Files) : GeneratedFile → Option String
  | .podsPri => fs.podsPri
  | .podsSubdirsPri => fs.podsSubdirsPri
  | .subdirsPro => fs.subdirsPro

/-- Set the content of a generated file. -/
def Files.setText (fs : Files) (f : GeneratedFile) (t : Option String) : Files :=
  match f with
  | .podsPri => { fs with podsPri := t }
  | .podsSubdirsPri => { fs with podsSubdirsPri := t }
  | .subdirsPro => { fs with subdirsPro := t }

/-- What `QFile` did to a generated file. -/
inductive FileOp where
  | remove (f : GeneratedFile)
  | write (f : GeneratedFile) (content : String)
deriving DecidableEq, Repr

/-- State of a run: the files, the current working directory, and the logs of
the external commands issued, the signals emitted and the file operations
done, each oldest first. -/
structure Sys where
  files : Files
  cwd : String
  commands : List String
  signals : List Signal
  fileOps : List FileOp
deriving DecidableEq, Repr

/-- A `QJsonValue`. -/
inductive QJsonValue where
  | null
  | bool (b : Bool)
  | double (d : Int)
  | string (s : String)
  | array (a : List QJsonValue)
  | object (o : List (String × QJsonValue))
  | undefined

/-- A `QJsonDocument` holds an object or an array. -/
inductive QJsonDocument where
  | object (o : List (String × QJsonValue))
  | array (a : List QJsonValue)

/-- What lies outside the program: the external commands run through
`QProcess::execute` (exit code and the files they leave, which may depend on
everything that happened before), whether `QFile::open` succeeds, the path
functions of `QDir`, the network (`networkAccessible` is false exactly when
`QNetworkAccessManager::networkAccessible` is `NotAccessible`, `get` is the
body of the reply to a request) and the JSON parser (`none` on a parse
error). -/
structure Env where
  execute : Sys → String → Int × Files
  canOpen : Sys → GeneratedFile → Bool
  filePath : String → String → String
  absoluteFilePath : String → String → String
  dirName : String → String
  networkAccessible : Bool
  get : String → String
  fromJson : String → Option QJsonDocument

/-! ## JSON accessors -/

/-- `QJsonValue::toString`: the string of a string value, empty otherwise. -/
def QJsonValue.toString : QJsonValue → String
  | .string s => s
  | _ => ""

/-- `QJsonValue::isObject`. -/
def QJsonValue.isObject : QJsonValue → Bool
  | .object _ => true
  | _ => false

/-- `QJsonValue::toObject`: the object of an object value, empty otherwise. -/
def QJsonValue.toObject : QJsonValue → List (String × QJsonValue)
  | .object o => o
  | _ => []

/-- `QJsonObject::value`: the value stored under a key, undefined when the key
is missing. -/
def jsonValue (k : String) : List (String × QJsonValue) → QJsonValue
  | [] => .undefined
  | e :: es => if e.1 = k then e.2 else jsonValue k es

/-- `QJsonObject::keys`. -/
def jsonKeys (o : List (String × QJsonValue)) : List String :=
  o.map (fun e => e.1)

/-- `QJsonDocument::object`: the object of the document, empty when the
document is an array. -/
def QJsonDocument.toObject : QJsonDocument → List (String × QJsonValue)
  | .object o => o
  | .array _ => []

/-! ## Primitive effects -/

/-- Emit a signal. -/
def emit (sig : Signal) (s : Sys) : Sys :=
  { s with signals := s.signals ++ [sig] }

/-- `QDir::setCurrent`. -/
def setCurrent (path : String) (s : Sys) : Sys :=
  { s with cwd := path }

/-- `QFile::remove` on a generated file. -/
def fileRemove (f : GeneratedFile) (s : Sys) : Sys :=
  { s with files := s.files.setText f none, fileOps := s.fileOps ++ [.remove f] }

/-- `QFile::write` followed by `close` on a generated file that was just
opened; at both places of the source the file does not exist when it is
opened, so the text written is the whole content. -/
def fileWrite (f : GeneratedFile) (content : String) (s : Sys) : Sys :=
  { s with files := s.files.setText f (some content), fileOps := s.fileOps ++ [.write f content] }

/-- Sequencing of `a && b` where `b` has effects: `b` runs only when `a` holds. -/
def andThen (r : Bool × Sys) (f : Sys → Bool × Sys) : Bool × Sys :=
  if r.1 then f r.2 else (false, r.2)

/-! ## `PodManager` -/

/-- `PodManager::runCommand`. -/
def runCommand (env : Env) (command : String) (s : Sys) : Bool × Sys :=
  let r := env.execute s command
  (decide (0 = r.1), { s with files := r.2, commands := s.commands ++ [command] })

/-- `PodManager::makeSureInRepositoryDirectory`. -/
def makeSureInRepositoryDirectory (repository : String) (s : Sys) : Sys :=
  setCurrent repository s

/-- `PodManager::stageFile`. -/
def stageFile (env : Env) (repository fileName : String) (s : Sys) : Bool × Sys :=
  runCommand env (arg "git add %1" fileName) (makeSureInRepositoryDirectory repository s)

/-- `PodManager::isGitRepository`. -/
def isGitRepository (repository : String) (s : Sys) : Bool × Sys :=
  let result := s.files.git
  (result, emit (.isGitRepositoryFinished repository result) s)

/-- `PodManager::readPodInfo`. -/
def readPodInfo (repository : String) (pod : Pod) (s : Sys) : Pod :=
  let podinfo : QSettings := { map := s.files.podinfo }
  let childGroups := podinfo.childGroups
  if childGroups.contains pod.name then
    let podinfo := podinfo.beginGroup pod.name
    { pod with
      author := podinfo.value "author"
      description := podinfo.value "description"
      license := podinfo.value "license"
      website := podinfo.value "website" }
  else pod

/-- `PodManager::writePodInfo`. -/
def writePodInfo (env : Env) (repository : String) (pod : Pod) (s : Sys) : Bool × Sys :=
  let podinfo : QSettings := { map := s.files.podinfo }
  let podinfo := podinfo.beginGroup pod.name
  let podinfo := podinfo.setValue "author" pod.author
  let podinfo := podinfo.setValue "description" pod.description
  let podinfo := podinfo.setValue "license" pod.license
  let podinfo := podinfo.setValue "website" pod.website
  let podinfo := podinfo.endGroup
  let s := { s with files := { s.files with podinfo := podinfo.map } }
  stageFile env repository ".podinfo" s

/-- `PodManager::purgePodInfo`. -/
def purgePodInfo (env : Env) (repository podName : String) (s : Sys) : Bool × Sys :=
  let podinfo : QSettings := { map := s.files.podinfo }
  let podinfo := podinfo.remove podName
  let s := { s with files := { s.files with podinfo := podinfo.map } }
  stageFile env repository ".podinfo" s

/-- `PodManager::removePodSubmodule`. -/
def removePodSubmodule (env : Env) (repository podName : String) (s : Sys) : Bool × Sys :=
  let s := makeSureInRepositoryDirectory repository s
  andThen (andThen (andThen
    (runCommand env (arg "git submodule deinit -f %1" podName) s)
    (runCommand env (arg "git rm -rf %1" podName)))
    (runCommand env (arg (arg "rm -rf %1/.git/modules/%2" repository) podName)))
    (purgePodInfo env repository podName)

/-- `PodManager::addPodSubmodule`. -/
def addPodSubmodule (env : Env) (repository : String) (pod : Pod) (s : Sys) : Bool × Sys :=
  let s := makeSureInRepositoryDirectory repository s
  andThen (runCommand env (arg (arg "git submodule add %1 %2" pod.url) pod.name) s)
    (writePodInfo env repository pod)

/-- `PodManager::updatePodSubmodule`. -/
def updatePodSubmodule (env : Env) (repository podName : String) (s : Sys) : Bool × Sys :=
  let s := setCurrent (env.absoluteFilePath repository podName) s
  andThen (andThen
    (runCommand env "git stash" s)
    (runCommand env "git checkout master"))
    (runCommand env "git pull")

/-- `PodManager::listInstalledPods`. -/
def listInstalledPods (repository : String) (s : Sys) : List Pod × Sys :=
  let pods : List Pod :=
    match s.files.gitmodules with
    | none => []
    | some m =>
      let gitmodules : QSettings := { map := m }
      gitmodules.childGroups.foldl (fun pods childGroup =>
        if startsWith childGroup "submodule" then
          let group := gitmodules.beginGroup childGroup
          let pod : Pod := { name := group.value "path", url := group.value "url" }
          pods ++ [readPodInfo repository pod s]
        else pods) []
  (pods, emit (.listInstalledPodsFinished repository pods) s)

/-- The pod `PodManager::listAvailablePods` appends for one key of an index. -/
def availablePod (object : List (String × QJsonValue)) (key : String) : Pod :=
  if (jsonValue key object).isObject then
    let metaInformationObject := (jsonValue key object).toObject
    { name := key
      url := (jsonValue "url" metaInformationObject).toString
      author := (jsonValue "author" metaInformationObject).toString
      description := (jsonValue "description" metaInformationObject).toString
      license := (jsonValue "license" metaInformationObject).toString }
  else
    { name := key, url := (jsonValue key object).toString }

/-- `PodManager::listAvailablePods`. -/
def listAvailablePods (env : Env) (sources : List String) (s : Sys) : List Pod × Sys :=
  if !env.networkAccessible then
    ([], emit (.listAvailablePodsFinished sources []) s)
  else
    let pods := sources.foldl (fun pods source =>
      let response := env.get source
      match env.fromJson response with
      | some document =>
        let object := document.toObject
        (jsonKeys object).foldl (fun pods key => pods ++ [availablePod object key]) pods
      | none => pods) []
    (pods, emit (.listAvailablePodsFinished sources pods) s)

/-- Header of `pods.pri`. -/
def podsPriHeader : String :=
  "# Auto-generated by qt-pods. Do not edit.\n# Include this to your application project file with:\n# include(../pods.pri)\n# This file should be put under version control.\n"

/-- `PodManager::generatePodsPri`. -/
def generatePodsPri (env : Env) (repository : String) (s : Sys) : Sys :=
  let l := listInstalledPods repository s
  let pods := l.1
  let s := l.2
  let header := podsPriHeader
  let includePris := pods.foldl (fun acc pod => acc ++ arg "include(%1/%1.pri)\n" pod.name) ""
  let podsPri := arg (arg "%1\n%2\n" header) includePris
  let file := GeneratedFile.podsPri
  let s := fileRemove file s
  let s := if env.canOpen s file then fileWrite file podsPri s else s
  let s := (stageFile env repository (env.filePath repository "pods.pri") s).2
  emit (.generatePodsPriFinished repository) s

/-- Header of `pods-subdirs.pri`. -/
def podsSubdirsPriHeader : String :=
  "# Auto-generated by qt-pods. Do not edit.\n# Include this to your subdirs project file with:\n# include(pods-subdirs.pri)\n# This file should be put under version control.\n"

/-- `PodManager::generatePodsSubdirsPri`. -/
def generatePodsSubdirsPri (env : Env) (repository : String) (s : Sys) : Sys :=
  let l := listInstalledPods repository s
  let pods := l.1
  let s := l.2
  let header := podsSubdirsPriHeader
  let subdirs := pods.foldl (fun acc pod => acc ++ arg "\\\n\t%1 " pod.name) "SUBDIRS += "
  let podsSubdirsPri := arg (arg "%1\n%2\n\n" header) subdirs
  let file := GeneratedFile.podsSubdirsPri
  let s := fileRemove file s
  let s := if env.canOpen s file then fileWrite file podsSubdirsPri s else s
  let s := (stageFile env repository (env.filePath repository "pods-subdirs.pri") s).2
  emit (.generatePodsSubdirsPriFinished repository) s

/-- Default content of the umbrella project file. -/
def subdirsProText : String :=
  "# Auto-generated by qt-pods.\n# This file should be put under version control.\nTEMPLATE = subdirs\ninclude(pods-subdirs.pri)\nSUBDIRS +=\n"

/-- `PodManager::generateSubdirsPro`. -/
def generateSubdirsPro (env : Env) (repository : String) (s : Sys) : Sys :=
  let file := GeneratedFile.subdirsPro
  let fileName := env.filePath repository (arg "%1.pro" (env.dirName repository))
  let s :=
    if !(s.files.text file).isSome then
      if env.canOpen s file then fileWrite file subdirsProText s else s
    else s
  let s := (stageFile env repository fileName s).2
  emit (.generateSubdirsProFinished repository) s

/-- `PodManager::generateQmakeFiles`. -/
def generateQmakeFiles (env : Env) (repository : String) (s : Sys) : Sys :=
  let s := makeSureInRepositoryDirectory repository s
  let s := generatePodsPri env repository s
  let s := generatePodsSubdirsPri env repository s
  generateSubdirsPro env repository s

/-- `PodManager::installPods`. -/
def installPods (env : Env) (repository : String) (pods : List Pod) (s : Sys) : Bool × Sys :=
  let g := isGitRepository repository s
  if !g.1 then (false, emit (.installPodsFinished repository pods false) g.2)
  else
    let l := pods.foldl (fun acc pod => andThen acc (addPodSubmodule env repository pod))
      (true, g.2)
    if !l.1 then (false, emit (.installPodsFinished repository pods false) l.2)
    else
      let s := generateQmakeFiles env repository l.2
      (true, emit (.installPodsFinished repository pods true) s)

/-- `PodManager::removePod`. -/
def removePod (env : Env) (repository podName : String) (s : Sys) : Bool × Sys :=
  let g := isGitRepository repository s
  if !g.1 then (false, emit (.removePodFinished repository podName false) g.2)
  else
    let a := removePodSubmodule env repository podName g.2
    if !a.1 then (false, emit (.removePodFinished repository podName false) a.2)
    else
      let s := generateQmakeFiles env repository a.2
      (true, emit (.removePodFinished repository podName true) s)

/-- `PodManager::removePods`. -/
def removePods (env : Env) (repository : String) (podNames : List String) (s : Sys) :
    Bool × Sys :=
  let g := isGitRepository repository s
  if !g.1 then (false, emit (.removePodsFinished repository podNames false) g.2)
  else
    let l := podNames.foldl
      (fun acc podName => andThen acc (removePodSubmodule env repository podName)) (true, g.2)
    if !l.1 then (false, emit (.removePodsFinished repository podNames false) l.2)
    else
      let s := generateQmakeFiles env repository l.2
      (true, emit (.removePodsFinished repository podNames true) s)

/-- `PodManager::updatePod`. -/
def updatePod (env : Env) (repository podName : String) (s : Sys) : Bool × Sys :=
  let g := isGitRepository repository s
  if !g.1 then (false, emit (.updatePodFinished repository podName false) g.2)
  else
    let r := updatePodSubmodule env repository podName g.2
    (r.1, emit (.updatePodFinished repository podName r.1) r.2)

/-- `PodManager::updatePods`. -/
def updatePods (env : Env) (repository : String) (podNames : List String) (s : Sys) :
    Bool × Sys :=
  let g := isGitRepository repository s
  if !g.1 then (false, emit (.updatePodsFinished repository podNames false) g.2)
  else
    let l := podNames.foldl
      (fun acc podName => andThen acc (updatePodSubmodule env repository podName)) (true, g.2)
    let s := if !l.1 then emit (.updatePodsFinished repository podNames false) l.2 else l.2
    (true, emit (.updatePodsFinished repository podNames true) s)

/-- `PodManager::updateAllPods`. -/
def updateAllPods (env : Env) (repository : String) (s : Sys) : Bool × Sys :=
  let g := isGitRepository repository s
  if !g.1 then (false, emit (.updateAllPodsFinished repository false) g.2)
  else
    let p := listInstalledPods repository g.2
    let l := p.1.foldl (fun acc pod =>
      let u := updatePod env repository pod.name acc.2
      (u.1 && acc.1, u.2)) (false, p.2)
    if !l.1 then (false, emit (.updateAllPodsFinished repository false) l.2)
    else
      let s := generateQmakeFiles env repository l.2
      (true, emit (.updateAllPodsFinished repository true) s)

/-! ## Concrete environments and states -/

/-- An environment in which an external command exits with 1 when `bad` holds
of the state and the command and with 0 otherwise, never touching the files;
every file can be opened, paths are joined with `/`, the directory is named
`project`, and every index is the given JSON document. -/
def scriptedEnv (bad : Sys → String → Bool) (index : Option QJsonDocument) : Env :=
  { execute := fun s c => (if bad s c then 1 else 0, s.files)
    canOpen := fun _ _ => true
    filePath := fun d n => d ++ "/" ++ n
    absoluteFilePath := fun d n => d ++ "/" ++ n
    dirName := fun _ => "project"
    networkAccessible := true
    get := fun _ => ""
    fromJson := fun _ => index }

/-- The environment in which every external command succeeds. -/
def quietEnv : Env :=
  scriptedEnv (fun _ _ => false) none

/-- A run that starts on the given files with empty logs. -/
def startOn (fs : Files) : Sys :=
  { files := fs, cwd := "", commands := [], signals := [], fileOps := [] }

/-- A git repository without pods and without generated files. -/
def freshRepo : Files :=
  { git := true, gitmodules := none, podinfo := [], podsPri := none,
    podsSubdirsPri := none, subdirsPro := none }

/-- A git repository whose manifest lists the pod `logger`. -/
def loggerRepo : Files :=
  { freshRepo with
    gitmodules := some [("submodule \"logger\"/path", "logger"),
      ("submodule \"logger\"/url", "https://example.org/logger.git")] }

/-- A directory that is not a git repository. -/
def plainDirectory : Files :=
  { freshRepo with git := false }

/-- A git repository that already has an umbrella project file. -/
def umbrellaRepo : Files :=
  { freshRepo with subdirsPro := some "TEMPLATE = subdirs\n" }

/-- An index with one pod in the current format and one in the legacy format. -/
def sampleIndex : QJsonDocument :=
  .object [("json", .object [("url", .string "https://example.org/json.git"),
      ("author", .string "Ann")]),
    ("logger", .string "https://example.org/logger.git")]

/-- An environment without network access. -/
def offlineEnv : Env :=
  { quietEnv with networkAccessible := false }

/-! ## Notions the statements use -/

/-- Whether the steps `f x`, run one after the other from `s` for the `x` of a
list, all succeed. -/
def stepsSucceed {α : Type} (f : α → Sys → Bool × Sys) : List α → Sys → Bool
  | [], _ => true
  | x :: xs, s => (f x s).1 && stepsSucceed f xs (f x s).2

/-- The state after the steps `f x` have run one after the other from `s`. -/
def afterSteps {α : Type} (f : α → Sys → Bool × Sys) : List α → Sys → Sys
  | [], s => s
  | x :: xs, s => afterSteps f xs (f x s).2

/-- The external commands of a successful submodule step of an install. -/
def addCommands (pod : Pod) : List String :=
  [arg (arg "git submodule add %1 %2" pod.url) pod.name, "git add .podinfo"]

/-- The external commands of a successful submodule step of a removal. -/
def removeCommands (repository podName : String) : List String :=
  [arg "git submodule deinit -f %1" podName, arg "git rm -rf %1" podName,
   arg (arg "rm -rf %1/.git/modules/%2" repository) podName, "git add .podinfo"]

theorem foldl_update_fst_false (env : Env) (repository : String) (pods : List Pod)
    (acc : Bool × Sys) (h : acc.1 = false) :
    (pods.foldl (fun acc pod =>
      let u := updatePod env repository pod.name acc.2
      (u.1 && acc.1, u.2)) acc).1 = false := by
  induction pods generalizing acc with
  | nil => simpa using h
  | cons p ps ih =>
    simp only [List.foldl_cons]
    apply ih
    simp [h]

/-- C1 (code as written): with the repository `/repo` a git repository, the
pod list `["logger"]` and `git stash` exiting non-zero, the update of the pod
fails, yet `updatePods` returns true and emits `updatePodsFinished` twice,
first with success = false and then with success = true. -/
theorem updatePods_failure_reported_as_success :
    (updatePodSubmodule (scriptedEnv (fun _ c => decide (c = "git stash")) none) "/repo" "logger"
      (isGitRepository "/repo" (startOn loggerRepo)).2).1 = false ∧
    (updatePods (scriptedEnv (fun _ c => decide (c = "git stash")) none) "/repo" ["logger"]
      (startOn loggerRepo)).1 = true ∧
    (updatePods (scriptedEnv (fun _ c => decide (c = "git stash")) none) "/repo" ["logger"]
      (startOn loggerRepo)).2.signals =
      [.isGitRepositoryFinished "/repo" true,
       .updatePodsFinished "/repo" ["logger"] false,
       .updatePodsFinished "/repo" ["logger"] true] := by
  decide

/-- C2 (code as written): `updateAllPods` returns false on every repository and
in every environment, also when every pod update succeeds: in the git
repository `/repo` with the one installed pod `logger` and every command
exiting with 0 the update of the pod is reported successful and
`updateAllPods` still returns false, emits `updateAllPodsFinished` with
success = false and does not regenerate the qmake files. -/
theorem updateAllPods_never_succeeds :
    (∀ (env : Env) (repository : String) (s : Sys),
      (updateAllPods env repository s).1 = false) ∧
    (updateAllPods quietEnv "/repo" (startOn loggerRepo)).2.signals =
      [.isGitRepositoryFinished "/repo" true,
       .listInstalledPodsFinished "/repo"
         [{ name := "logger", url := "https://example.org/logger.git" }],
       .isGitRepositoryFinished "/repo" true,
       .updatePodFinished "/repo" "logger" true,
       .updateAllPodsFinished "/repo" false] ∧
    (updateAllPods quietEnv "/repo" (startOn loggerRepo)).2.fileOps = [] := by
  refine ⟨?_, by decide, by decide⟩
  intro env repository s
  unfold updateAllPods
  by_cases hg : (isGitRepository repository s).1 = true
  · simp only [hg, Bool.not_true, Bool.false_eq_true, ↓reduceIte]
    rw [foldl_update_fst_false env repository _ _ rfl]
    simp
  · simp [hg]


/-! ### Effects of the steps on the logs -/

@[simp] theorem emit_commands (x : Signal) (s : Sys) : (emit x s).commands = s.commands := rfl
@[simp] theorem emit_fileOps (x : Signal) (s : Sys) : (emit x s).fileOps = s.fileOps := rfl
@[simp] theorem emit_files (x : Signal) (s : Sys) : (emit x s).files = s.files := rfl
@[simp] theorem emit_signals (x : Signal) (s : Sys) : (emit x s).signals = s.signals ++ [x] := rfl

@[simp] theorem runCommand_commands (env : Env) (c : String) (s : Sys) :
    (runCommand env c s).2.commands = s.commands ++ [c] := rfl
@[simp] theorem runCommand_signals (env : Env) (c : String) (s : Sys) :
    (runCommand env c s).2.signals = s.signals := rfl
@[simp] theorem runCommand_fileOps (env : Env) (c : String) (s : Sys) :
    (runCommand env c s).2.fileOps = s.fileOps := rfl

theorem arg_git_add (fileName : String) : arg "git add %1" fileName = "git add " ++ fileName := by
  apply String.ext
  have h : scanArg .normal "git add %1".data =
      [.text 'g', .text 'i', .text 't', .text ' ', .text 'a', .text 'd', .text 'd', .text ' ',
       .escape 1 ['%', '1']] := by decide
  simp only [arg, h]
  simp [minEscape, replaceEscapes]

theorem arg_git_add_podinfo : arg "git add %1" ".podinfo" = "git add .podinfo" := by decide

theorem writePodInfo_logs (env : Env) (repository : String) (pod : Pod) (s : Sys) :
    (writePodInfo env repository pod s).2.commands = s.commands ++ ["git add .podinfo"] ∧
    (writePodInfo env repository pod s).2.signals = s.signals ∧
    (writePodInfo env repository pod s).2.fileOps = s.fileOps := by
  simp [writePodInfo, stageFile, makeSureInRepositoryDirectory, setCurrent, arg_git_add_podinfo]

theorem purgePodInfo_logs (env : Env) (repository podName : String) (s : Sys) :
    (purgePodInfo env repository podName s).2.commands = s.commands ++ ["git add .podinfo"] ∧
    (purgePodInfo env repository podName s).2.signals = s.signals ∧
    (purgePodInfo env repository podName s).2.fileOps = s.fileOps := by
  simp [purgePodInfo, stageFile, makeSureInRepositoryDirectory, setCurrent, arg_git_add_podinfo]

theorem andThen_true (r : Bool × Sys) (f : Sys → Bool × Sys) (h : r.1 = true) :
    andThen r f = f r.2 := by
  simp [andThen, h]

theorem andThen_false (r : Bool × Sys) (f : Sys → Bool × Sys) (h : r.1 = false) :
    andThen r f = (false, r.2) := by
  simp [andThen, h]

theorem addPodSubmodule_logs (env : Env) (repository : String) (pod : Pod) (s : Sys) :
    (addPodSubmodule env repository pod s).2.signals = s.signals ∧
    (addPodSubmodule env repository pod s).2.fileOps = s.fileOps ∧
    ((addPodSubmodule env repository pod s).1 = true →
      (addPodSubmodule env repository pod s).2.commands = s.commands ++ addCommands pod) ∧
    ((addPodSubmodule env repository pod s).1 = false →
      ∃ t, t ≠ [] ∧ t <+: addCommands pod ∧
        (addPodSubmodule env repository pod s).2.commands = s.commands ++ t) := by
  have e : addPodSubmodule env repository pod s =
      andThen (runCommand env (arg (arg "git submodule add %1 %2" pod.url) pod.name)
        (setCurrent repository s)) (writePodInfo env repository pod) := rfl
  rw [e]
  cases h : (runCommand env (arg (arg "git submodule add %1 %2" pod.url) pod.name)
      (setCurrent repository s)).1
  · rw [andThen_false _ _ h]
    refine ⟨rfl, rfl, fun h => by simp at h, fun _ => ?_⟩
    exact ⟨[arg (arg "git submodule add %1 %2" pod.url) pod.name], by simp,
      by simp [addCommands], by simp [setCurrent]⟩
  · rw [andThen_true _ _ h]
    have w := writePodInfo_logs env repository pod (runCommand env
      (arg (arg "git submodule add %1 %2" pod.url) pod.name) (setCurrent repository s)).2
    refine ⟨w.2.1, w.2.2, fun _ => ?_, fun _ => ?_⟩
    · rw [w.1]; simp [addCommands, setCurrent]
    · exact ⟨addCommands pod, by simp [addCommands], List.prefix_refl _, by
        rw [w.1]; simp [addCommands, setCurrent]⟩

theorem removePodSubmodule_logs (env : Env) (repository podName : String) (s : Sys) :
    (removePodSubmodule env repository podName s).2.signals = s.signals ∧
    (removePodSubmodule env repository podName s).2.fileOps = s.fileOps ∧
    ((removePodSubmodule env repository podName s).1 = true →
      (removePodSubmodule env repository podName s).2.commands =
        s.commands ++ removeCommands repository podName) ∧
    ((removePodSubmodule env repository podName s).1 = false →
      ∃ t, t ≠ [] ∧ t <+: removeCommands repository podName ∧
        (removePodSubmodule env repository podName s).2.commands = s.commands ++ t) := by
  have e : removePodSubmodule env repository podName s =
      andThen (andThen (andThen
        (runCommand env (arg "git submodule deinit -f %1" podName) (setCurrent repository s))
        (runCommand env (arg "git rm -rf %1" podName)))
        (runCommand env (arg (arg "rm -rf %1/.git/modules/%2" repository) podName)))
        (purgePodInfo env repository podName) := rfl
  rw [e]
  cases h1 : (runCommand env (arg "git submodule deinit -f %1" podName)
      (setCurrent repository s)).1
  · rw [andThen_false _ _ h1, andThen_false _ _ rfl, andThen_false _ _ rfl]
    refine ⟨rfl, rfl, fun h => by simp at h, fun _ => ?_⟩
    exact ⟨[arg "git submodule deinit -f %1" podName], by simp,
      by simp [removeCommands], by simp [setCurrent]⟩
  · rw [andThen_true _ _ h1]
    cases h2 : (runCommand env (arg "git rm -rf %1" podName)
        (runCommand env (arg "git submodule deinit -f %1" podName) (setCurrent repository s)).2).1
    · rw [andThen_false _ _ h2, andThen_false _ _ rfl]
      refine ⟨rfl, rfl, fun h => by simp at h, fun _ => ?_⟩
      exact ⟨[arg "git submodule deinit -f %1" podName, arg "git rm -rf %1" podName], by simp,
        by simp [removeCommands, List.prefix_iff_eq_append], by simp [setCurrent]⟩
    · rw [andThen_true _ _ h2]
      cases h3 : (runCommand env (arg (arg "rm -rf %1/.git/modules/%2" repository) podName)
          (runCommand env (arg "git rm -rf %1" podName)
            (runCommand env (arg "git submodule deinit -f %1" podName)
              (setCurrent repository s)).2).2).1
      · rw [andThen_false _ _ h3]
        refine ⟨rfl, rfl, fun h => by simp at h, fun _ => ?_⟩
        exact ⟨[arg "git submodule deinit -f %1" podName, arg "git rm -rf %1" podName,
          arg (arg "rm -rf %1/.git/modules/%2" repository) podName], by simp,
          by simp [removeCommands, List.prefix_iff_eq_append], by simp [setCurrent]⟩
      · rw [andThen_true _ _ h3]
        have w := purgePodInfo_logs env repository podName
          (runCommand env (arg (arg "rm -rf %1/.git/modules/%2" repository) podName)
          (runCommand env (arg "git rm -rf %1" podName)
            (runCommand env (arg "git submodule deinit -f %1" podName)
              (setCurrent repository s)).2).2).2
        refine ⟨w.2.1, w.2.2, fun _ => ?_, fun _ => ?_⟩
        · rw [w.1]; simp [removeCommands, setCurrent]
        · exact ⟨removeCommands repository podName, by simp [removeCommands],
            List.prefix_refl _, by rw [w.1]; simp [removeCommands, setCurrent]⟩

/-! ### Short-circuiting loops -/

theorem foldl_andThen_false {α : Type} (f : α → Sys → Bool × Sys) (xs : List α) (s : Sys) :
    xs.foldl (fun acc x => andThen acc (f x)) (false, s) = (false, s) := by
  induction xs with
  | nil => rfl
  | cons x xs ih => simpa [andThen] using ih

theorem foldl_andThen_succeed {α : Type} (f : α → Sys → Bool × Sys) (xs : List α) (s : Sys)
    (h : stepsSucceed f xs s = true) :
    xs.foldl (fun acc x => andThen acc (f x)) (true, s) = (true, afterSteps f xs s) := by
  induction xs generalizing s with
  | nil => rfl
  | cons x xs ih =>
    simp only [stepsSucceed, Bool.and_eq_true] at h
    simp only [List.foldl_cons, afterSteps]
    rw [andThen_true _ _ rfl]
    have e : f x s = (true, (f x s).2) := Prod.ext h.1 rfl
    rw [e]
    exact ih _ h.2

theorem foldl_andThen_first_failure {α : Type} (f : α → Sys → Bool × Sys)
    (pre : List α) (p : α) (post : List α) (s : Sys)
    (hpre : stepsSucceed f pre s = true) (hp : (f p (afterSteps f pre s)).1 = false) :
    (pre ++ p :: post).foldl (fun acc x => andThen acc (f x)) (true, s) =
      (false, (f p (afterSteps f pre s)).2) := by
  rw [List.foldl_append, foldl_andThen_succeed f pre s hpre, List.foldl_cons,
    andThen_true _ _ rfl]
  have e : f p (afterSteps f pre s) = (false, (f p (afterSteps f pre s)).2) := Prod.ext hp rfl
  rw [e]
  exact foldl_andThen_false f post _

theorem afterSteps_logs {α : Type} (f : α → Sys → Bool × Sys) (cmds : α → List String)
    (hs : ∀ x s, (f x s).2.signals = s.signals) (hf : ∀ x s, (f x s).2.fileOps = s.fileOps)
    (hc : ∀ x s, (f x s).1 = true → (f x s).2.commands = s.commands ++ cmds x)
    (xs : List α) (s : Sys) (h : stepsSucceed f xs s = true) :
    (afterSteps f xs s).signals = s.signals ∧ (afterSteps f xs s).fileOps = s.fileOps ∧
    (afterSteps f xs s).commands = s.commands ++ xs.flatMap cmds := by
  induction xs generalizing s with
  | nil => simp [afterSteps]
  | cons x xs ih =>
    simp only [stepsSucceed, Bool.and_eq_true] at h
    obtain ⟨i1, i2, i3⟩ := ih _ h.2
    simp only [afterSteps]
    refine ⟨by rw [i1, hs], by rw [i2, hf], ?_⟩
    rw [i3, hc x s h.1]
    simp


/-- C4: batch short-circuit without rollback.  In a git repository, when the
pods `pre` all pass their submodule step and the next pod `p` is the first
whose step fails, `installPods` returns false, the commands it issued are
exactly those of the successful steps of `pre` followed by a non-empty initial
part of the commands of `p` (nothing for the pods after `p`, no undo command),
no generated file is removed or written, and the only signals are the
repository check and `installPodsFinished` with success = false; the same
holds for `removePods`.  When the repository is not a git repository neither
operation issues a command and both return false. -/
theorem batch_short_circuit_without_rollback (env : Env) (repository : String) (s : Sys) :
    (∀ (pre : List Pod) (p : Pod) (post : List Pod),
      s.files.git = true →
      stepsSucceed (addPodSubmodule env repository) pre (isGitRepository repository s).2 = true →
      (addPodSubmodule env repository p
        (afterSteps (addPodSubmodule env repository) pre (isGitRepository repository s).2)).1
          = false →
      (installPods env repository (pre ++ p :: post) s).1 = false ∧
      (∃ t, t ≠ [] ∧ t <+: addCommands p ∧
        (installPods env repository (pre ++ p :: post) s).2.commands =
          s.commands ++ pre.flatMap addCommands ++ t) ∧
      (installPods env repository (pre ++ p :: post) s).2.fileOps = s.fileOps ∧
      (installPods env repository (pre ++ p :: post) s).2.signals =
        s.signals ++ [.isGitRepositoryFinished repository true,
          .installPodsFinished repository (pre ++ p :: post) false]) ∧
    (∀ (pre : List String) (p : String) (post : List String),
      s.files.git = true →
      stepsSucceed (removePodSubmodule env repository) pre (isGitRepository repository s).2
        = true →
      (removePodSubmodule env repository p
        (afterSteps (removePodSubmodule env repository) pre (isGitRepository repository s).2)).1
          = false →
      (removePods env repository (pre ++ p :: post) s).1 = false ∧
      (∃ t, t ≠ [] ∧ t <+: removeCommands repository p ∧
        (removePods env repository (pre ++ p :: post) s).2.commands =
          s.commands ++ pre.flatMap (removeCommands repository) ++ t) ∧
      (removePods env repository (pre ++ p :: post) s).2.fileOps = s.fileOps ∧
      (removePods env repository (pre ++ p :: post) s).2.signals =
        s.signals ++ [.isGitRepositoryFinished repository true,
          .removePodsFinished repository (pre ++ p :: post) false]) ∧
    (∀ (pods : List Pod), s.files.git = false →
      (installPods env repository pods s).1 = false ∧
      (installPods env repository pods s).2.commands = s.commands ∧
      (installPods env repository pods s).2.fileOps = s.fileOps) ∧
    (∀ (podNames : List String), s.files.git = false →
      (removePods env repository podNames s).1 = false ∧
      (removePods env repository podNames s).2.commands = s.commands ∧
      (removePods env repository podNames s).2.fileOps = s.fileOps) := by
  refine ⟨?_, ?_, ?_, ?_⟩
  · intro pre p post hgit hpre hp
    have hg : (isGitRepository repository s).1 = true := hgit
    have hl := foldl_andThen_first_failure (addPodSubmodule env repository) pre p post _ hpre hp
    have hA := afterSteps_logs (addPodSubmodule env repository) addCommands
      (fun x s => (addPodSubmodule_logs env repository x s).1)
      (fun x s => (addPodSubmodule_logs env repository x s).2.1)
      (fun x s => (addPodSubmodule_logs env repository x s).2.2.1) pre _ hpre
    have hP := addPodSubmodule_logs env repository p
      (afterSteps (addPodSubmodule env repository) pre (isGitRepository repository s).2)
    obtain ⟨t, ht1, ht2, ht3⟩ := hP.2.2.2 hp
    have e : installPods env repository (pre ++ p :: post) s =
        (false, emit (.installPodsFinished repository (pre ++ p :: post) false)
          (addPodSubmodule env repository p
            (afterSteps (addPodSubmodule env repository) pre
              (isGitRepository repository s).2)).2) := by
      unfold installPods
      simp only [hg, hl, Bool.not_true, Bool.not_false, Bool.false_eq_true, ↓reduceIte]
    rw [e]
    refine ⟨rfl, ⟨t, ht1, ht2, ?_⟩, ?_, ?_⟩
    · rw [emit_commands, ht3, hA.2.2]; simp [isGitRepository]
    · rw [emit_fileOps, hP.2.1, hA.2.1]; simp [isGitRepository]
    · rw [emit_signals, hP.1, hA.1]; simp [isGitRepository, hgit]
  · intro pre p post hgit hpre hp
    have hg : (isGitRepository repository s).1 = true := hgit
    have hl := foldl_andThen_first_failure (removePodSubmodule env repository) pre p post _ hpre hp
    have hA := afterSteps_logs (removePodSubmodule env repository) (removeCommands repository)
      (fun x s => (removePodSubmodule_logs env repository x s).1)
      (fun x s => (removePodSubmodule_logs env repository x s).2.1)
      (fun x s => (removePodSubmodule_logs env repository x s).2.2.1) pre _ hpre
    have hP := removePodSubmodule_logs env repository p
      (afterSteps (removePodSubmodule env repository) pre (isGitRepository repository s).2)
    obtain ⟨t, ht1, ht2, ht3⟩ := hP.2.2.2 hp
    have e : removePods env repository (pre ++ p :: post) s =
        (false, emit (.removePodsFinished repository (pre ++ p :: post) false)
          (removePodSubmodule env repository p
            (afterSteps (removePodSubmodule env repository) pre
              (isGitRepository repository s).2)).2) := by
      unfold removePods
      simp only [hg, hl, Bool.not_true, Bool.not_false, Bool.false_eq_true, ↓reduceIte]
    rw [e]
    refine ⟨rfl, ⟨t, ht1, ht2, ?_⟩, ?_, ?_⟩
    · rw [emit_commands, ht3, hA.2.2]; simp [isGitRepository]
    · rw [emit_fileOps, hP.2.1, hA.2.1]; simp [isGitRepository]
    · rw [emit_signals, hP.1, hA.1]; simp [isGitRepository, hgit]
  · intro pods hgit
    simp [installPods, isGitRepository, hgit]
  · intro podNames hgit
    simp [removePods, isGitRepository, hgit]

/-- C4 at concrete inputs: the second of three pods fails its submodule step
(install: `git submodule add u2 b`, removal: `git rm -rf b`), and a directory
that is not a git repository. -/
theorem batch_short_circuit_witness :
    ((startOn freshRepo).files.git = true ∧
      stepsSucceed (addPodSubmodule
        (scriptedEnv (fun _ c => decide (c = "git submodule add u2 b")) none) "/repo")
        [{ name := "a", url := "u1" }] (isGitRepository "/repo" (startOn freshRepo)).2 = true ∧
      (addPodSubmodule (scriptedEnv (fun _ c => decide (c = "git submodule add u2 b")) none)
        "/repo" { name := "b", url := "u2" }
        (afterSteps (addPodSubmodule
          (scriptedEnv (fun _ c => decide (c = "git submodule add u2 b")) none) "/repo")
          [{ name := "a", url := "u1" }] (isGitRepository "/repo" (startOn freshRepo)).2)).1
        = false ∧
      (installPods (scriptedEnv (fun _ c => decide (c = "git submodule add u2 b")) none) "/repo"
        ([{ name := "a", url := "u1" }] ++ { name := "b", url := "u2" } ::
          [{ name := "c", url := "u3" }]) (startOn freshRepo)).1 = false) ∧
    ((startOn freshRepo).files.git = true ∧
      stepsSucceed (removePodSubmodule
        (scriptedEnv (fun _ c => decide (c = "git rm -rf b")) none) "/repo")
        ["a"] (isGitRepository "/repo" (startOn freshRepo)).2 = true ∧
      (removePodSubmodule (scriptedEnv (fun _ c => decide (c = "git rm -rf b")) none)
        "/repo" "b"
        (afterSteps (removePodSubmodule
          (scriptedEnv (fun _ c => decide (c = "git rm -rf b")) none) "/repo")
          ["a"] (isGitRepository "/repo" (startOn freshRepo)).2)).1 = false ∧
      (removePods (scriptedEnv (fun _ c => decide (c = "git rm -rf b")) none) "/repo"
        (["a"] ++ "b" :: ["c"]) (startOn freshRepo)).1 = false) ∧
    ((startOn plainDirectory).files.git = false ∧
      (installPods quietEnv "/repo" [{ name := "a", url := "u1" }]
        (startOn plainDirectory)).2.commands = (startOn plainDirectory).commands) ∧
    ((startOn plainDirectory).files.git = false ∧
      (removePods quietEnv "/repo" ["a"] (startOn plainDirectory)).2.commands =
        (startOn plainDirectory).commands) :=
  ⟨⟨by decide, by decide, by decide,
      ((batch_short_circuit_without_rollback
        (scriptedEnv (fun _ c => decide (c = "git submodule add u2 b")) none) "/repo"
        (startOn freshRepo)).1 [{ name := "a", url := "u1" }] { name := "b", url := "u2" }
        [{ name := "c", url := "u3" }] (by decide) (by decide) (by decide)).1⟩,
    ⟨by decide, by decide, by decide,
      ((batch_short_circuit_without_rollback
        (scriptedEnv (fun _ c => decide (c = "git rm -rf b")) none) "/repo"
        (startOn freshRepo)).2.1 ["a"] "b" ["c"] (by decide) (by decide) (by decide)).1⟩,
    ⟨by decide,
      ((batch_short_circuit_without_rollback quietEnv "/repo" (startOn plainDirectory)).2.2.1
        [{ name := "a", url := "u1" }] (by decide)).2.1⟩,
    ⟨by decide,
      ((batch_short_circuit_without_rollback quietEnv "/repo" (startOn plainDirectory)).2.2.2
        ["a"] (by decide)).2.1⟩⟩

/-! ### Signals of the generators -/

theorem stageFile_logs (env : Env) (repository fileName : String) (s : Sys) :
    (stageFile env repository fileName s).2.commands = s.commands ++ ["git add " ++ fileName] ∧
    (stageFile env repository fileName s).2.signals = s.signals ∧
    (stageFile env repository fileName s).2.fileOps = s.fileOps := by
  simp [stageFile, makeSureInRepositoryDirectory, setCurrent, arg_git_add]

theorem minEscape_text_append (l : List Char) (ps : List ArgPiece) :
    minEscape (l.map ArgPiece.text ++ ps) = minEscape ps := by
  induction l with
  | nil => rfl
  | cons c cs ih => simpa [minEscape] using ih

theorem replaceEscapes_text_append (m : Nat) (a l : List Char) (ps : List ArgPiece) :
    replaceEscapes m a (l.map ArgPiece.text ++ ps) = l ++ replaceEscapes m a ps := by
  induction l with
  | nil => rfl
  | cons c cs ih => simpa [replaceEscapes] using ih

theorem arg_pro (n : String) : arg "%1.pro" n = n ++ ".pro" := by
  apply String.ext
  have h : scanArg .normal "%1.pro".data =
      .escape 1 ['%', '1'] :: ".pro".data.map ArgPiece.text := by decide
  simp only [arg, h]
  simp [minEscape, replaceEscapes, minEscape_text_append, replaceEscapes_text_append]

@[simp] theorem listInstalledPods_fileOps (repository : String) (s : Sys) :
    (listInstalledPods repository s).2.fileOps = s.fileOps := rfl

@[simp] theorem listInstalledPods_commands (repository : String) (s : Sys) :
    (listInstalledPods repository s).2.commands = s.commands := rfl

@[simp] theorem listInstalledPods_files (repository : String) (s : Sys) :
    (listInstalledPods repository s).2.files = s.files := rfl

theorem stageFile_subdirsPro (env : Env) (repository fileName : String) (s : Sys)
    (hadd : ∀ st f, (env.execute st ("git add " ++ f)).2.subdirsPro = st.files.subdirsPro) :
    (stageFile env repository fileName s).2.files.subdirsPro = s.files.subdirsPro := by
  simp [stageFile, runCommand, arg_git_add, hadd, makeSureInRepositoryDirectory, setCurrent]

theorem generatePodsPri_subdirsPro (env : Env) (repository : String) (s : Sys)
    (hadd : ∀ st f, (env.execute st ("git add " ++ f)).2.subdirsPro = st.files.subdirsPro) :
    (generatePodsPri env repository s).files.subdirsPro = s.files.subdirsPro := by
  unfold generatePodsPri
  simp only [emit_files, stageFile_subdirsPro _ _ _ _ hadd]
  split <;> simp [fileWrite, fileRemove, Files.setText]

theorem generatePodsSubdirsPri_subdirsPro (env : Env) (repository : String) (s : Sys)
    (hadd : ∀ st f, (env.execute st ("git add " ++ f)).2.subdirsPro = st.files.subdirsPro) :
    (generatePodsSubdirsPri env repository s).files.subdirsPro = s.files.subdirsPro := by
  unfold generatePodsSubdirsPri
  simp only [emit_files, stageFile_subdirsPro _ _ _ _ hadd]
  split <;> simp [fileWrite, fileRemove, Files.setText]

theorem generateSubdirsPro_existing (env : Env) (repository : String) (s : Sys) (t : String)
    (hadd : ∀ st f, (env.execute st ("git add " ++ f)).2.subdirsPro = st.files.subdirsPro)
    (h : s.files.subdirsPro = some t) :
    (generateSubdirsPro env repository s).files.subdirsPro = some t ∧
    (generateSubdirsPro env repository s).fileOps = s.fileOps := by
  unfold generateSubdirsPro
  simp only [emit_files, emit_fileOps, stageFile_subdirsPro _ _ _ _ hadd, (stageFile_logs ..).2.2]
  simp [Files.text, h]

theorem generateSubdirsPro_absent (env : Env) (repository : String) (s : Sys)
    (hadd : ∀ st f, (env.execute st ("git add " ++ f)).2.subdirsPro = st.files.subdirsPro)
    (h : s.files.subdirsPro = none) (ho : env.canOpen s .subdirsPro = true) :
    (generateSubdirsPro env repository s).files.subdirsPro = some subdirsProText ∧
    (generateSubdirsPro env repository s).fileOps =
      s.fileOps ++ [.write .subdirsPro subdirsProText] := by
  unfold generateSubdirsPro
  simp only [emit_files, emit_fileOps, stageFile_subdirsPro _ _ _ _ hadd, (stageFile_logs ..).2.2]
  simp [Files.text, h, ho, fileWrite, Files.setText]

theorem generateSubdirsPro_commands (env : Env) (repository : String) (s : Sys) :
    (generateSubdirsPro env repository s).commands =
      s.commands ++ ["git add " ++ env.filePath repository (env.dirName repository ++ ".pro")] := by
  unfold generateSubdirsPro
  simp only [emit_commands, (stageFile_logs ..).1, arg_pro]
  split
  · split <;> simp [fileWrite]
  · rfl

theorem generateQmakeFiles_subdirsPro_isSome (env : Env) (repository : String) (s : Sys)
    (hadd : ∀ st f, (env.execute st ("git add " ++ f)).2.subdirsPro = st.files.subdirsPro)
    (hopen : ∀ st, env.canOpen st .subdirsPro = true) :
    ∃ t, (generateQmakeFiles env repository s).files.subdirsPro = some t := by
  unfold generateQmakeFiles
  simp only []
  cases h : (generatePodsSubdirsPri env repository
      (generatePodsPri env repository (makeSureInRepositoryDirectory repository s))).files.subdirsPro
  · exact ⟨_, (generateSubdirsPro_absent env repository _ hadd h (hopen _)).1⟩
  · exact ⟨_, (generateSubdirsPro_existing env repository _ _ hadd h).1⟩

theorem generateQmakeFiles_subdirsPro_keep (env : Env) (repository : String) (s : Sys)
    (t : String)
    (hadd : ∀ st f, (env.execute st ("git add " ++ f)).2.subdirsPro = st.files.subdirsPro)
    (h : s.files.subdirsPro = some t) :
    (generateQmakeFiles env repository s).files.subdirsPro = some t := by
  unfold generateQmakeFiles
  simp only []
  apply (generateSubdirsPro_existing env repository _ t hadd _).1
  rw [generatePodsSubdirsPri_subdirsPro _ _ _ hadd, generatePodsPri_subdirsPro _ _ _ hadd]
  exact h

/-- C7: `generateSubdirsPro` creates the umbrella project file only if it is
absent.  Provided `git add` leaves the umbrella file alone: an existing file
keeps its content and is not written; an absent file that can be opened is
written once with the default text; in every case the one command issued is
`git add` of `<repository>/<directory name>.pro`; and, when the file can be
opened, a second `generateQmakeFiles` leaves the umbrella file as the first
one left it. -/
theorem generateSubdirsPro_creates_only_if_absent (env : Env) (repository : String) (s : Sys)
    (hadd : ∀ st f, (env.execute st ("git add " ++ f)).2.subdirsPro = st.files.subdirsPro) :
    (∀ t, s.files.subdirsPro = some t →
      (generateSubdirsPro env repository s).files.subdirsPro = some t ∧
      (generateSubdirsPro env repository s).fileOps = s.fileOps) ∧
    (s.files.subdirsPro = none → env.canOpen s .subdirsPro = true →
      (generateSubdirsPro env repository s).files.subdirsPro =
        some "# Auto-generated by qt-pods.\n# This file should be put under version control.\nTEMPLATE = subdirs\ninclude(pods-subdirs.pri)\nSUBDIRS +=\n" ∧
      (generateSubdirsPro env repository s).fileOps = s.fileOps ++ [.write .subdirsPro
        "# Auto-generated by qt-pods.\n# This file should be put under version control.\nTEMPLATE = subdirs\ninclude(pods-subdirs.pri)\nSUBDIRS +=\n"]) ∧
    (generateSubdirsPro env repository s).commands =
      s.commands ++ ["git add " ++ env.filePath repository (env.dirName repository ++ ".pro")] ∧
    ((∀ st, env.canOpen st .subdirsPro = true) →
      (generateQmakeFiles env repository (generateQmakeFiles env repository s)).files.subdirsPro =
        (generateQmakeFiles env repository s).files.subdirsPro) := by
  refine ⟨fun t h => generateSubdirsPro_existing env repository s t hadd h,
    fun h ho => generateSubdirsPro_absent env repository s hadd h ho,
    generateSubdirsPro_commands env repository s, fun hopen => ?_⟩
  obtain ⟨t, ht⟩ := generateQmakeFiles_subdirsPro_isSome env repository s hadd hopen
  rw [generateQmakeFiles_subdirsPro_keep env repository _ t hadd ht, ht]


/-! ### `QSettings`: keys and groups -/

theorem foldl_append_map {α β : Type} (f : α → β) (l : List α) (init : List β) :
    l.foldl (fun acc x => acc ++ [f x]) init = init ++ l.map f := by
  induction l generalizing init with
  | nil => simp
  | cons x xs ih => simp [ih]

theorem foldl_sources (env : Env) (sources : List String) (init : List Pod) :
    sources.foldl (fun pods source =>
      match env.fromJson (env.get source) with
      | some document =>
        (jsonKeys document.toObject).foldl
          (fun pods key => pods ++ [availablePod document.toObject key]) pods
      | none => pods) init =
    init ++ sources.flatMap (fun source =>
      match env.fromJson (env.get source) with
      | some document =>
        (jsonKeys document.toObject).map (fun key => availablePod document.toObject key)
      | none => []) := by
  induction sources generalizing init with
  | nil => simp
  | cons x xs ih =>
    simp only [List.foldl_cons, List.flatMap_cons, ih]
    cases env.fromJson (env.get x) with
    | none => simp
    | some document => simp [foldl_append_map]

theorem jsonValue_missing (field : String) (m : List (String × QJsonValue))
    (h : field ∉ jsonKeys m) : jsonValue field m = .undefined := by
  induction m with
  | nil => rfl
  | cons e es ih =>
    simp only [jsonKeys, List.map_cons, List.mem_cons, not_or] at h
    have h1 : e.1 ≠ field := fun e2 => h.1 e2.symm
    simp only [jsonValue, h1, ↓reduceIte]
    exact ih h.2

/-- C8: `listAvailablePods` maps index entries to pods.  With network access
the result is the concatenation, in the order of the sources, of one pod per
key of each body that parses (a body that does not parse contributes nothing);
without network access the result is empty.  The pod of a key has that key as
name and an empty website; when the value is an object its url, author,
description and license are the string values of the fields of those names;
when the value is a string the url is that string and the other three are
empty; a missing field reads as the empty string. -/
theorem listAvailablePods_maps_index (env : Env) (sources : List String) (s : Sys) :
    (env.networkAccessible = true →
      (listAvailablePods env sources s).1 = sources.flatMap (fun source =>
        match env.fromJson (env.get source) with
        | some document =>
          (jsonKeys document.toObject).map (fun key => availablePod document.toObject key)
        | none => [])) ∧
    (env.networkAccessible = false → (listAvailablePods env sources s).1 = []) ∧
    (∀ (object : List (String × QJsonValue)) (key : String),
      (availablePod object key).name = key ∧ (availablePod object key).website = "" ∧
      (∀ m, jsonValue key object = .object m →
        (availablePod object key).url = (jsonValue "url" m).toString ∧
        (availablePod object key).author = (jsonValue "author" m).toString ∧
        (availablePod object key).description = (jsonValue "description" m).toString ∧
        (availablePod object key).license = (jsonValue "license" m).toString) ∧
      (∀ u, jsonValue key object = .string u →
        (availablePod object key).url = u ∧ (availablePod object key).author = "" ∧
        (availablePod object key).description = "" ∧ (availablePod object key).license = "")) ∧
    (∀ (m : List (String × QJsonValue)) (field : String), field ∉ jsonKeys m →
      (jsonValue field m).toString = "") := by
  refine ⟨fun h => ?_, fun h => ?_, fun object key => ⟨?_, ?_, fun m hm => ?_, fun u hu => ?_⟩,
    fun m field h => ?_⟩
  · simp only [listAvailablePods, h, Bool.not_true, Bool.false_eq_true, ↓reduceIte]
    rw [foldl_sources, List.nil_append]
  · simp [listAvailablePods, h]
  · unfold availablePod; split <;> rfl
  · unfold availablePod; split <;> rfl
  · simp [availablePod, hm, QJsonValue.isObject, QJsonValue.toObject]
  · simp [availablePod, hu, QJsonValue.isObject, QJsonValue.toString]
  · rw [jsonValue_missing field m h]; rfl

/-- C8 at concrete inputs: an index with one pod in each format, and an
environment without network access. -/
theorem listAvailablePods_witness :
    ((scriptedEnv (fun _ _ => false) (some sampleIndex)).networkAccessible = true ∧
      (listAvailablePods (scriptedEnv (fun _ _ => false) (some sampleIndex))
        ["https://example.org/index.json"] (startOn freshRepo)).1 =
        [{ name := "json", url := "https://example.org/json.git", author := "Ann" },
         { name := "logger", url := "https://example.org/logger.git" }]) ∧
    (offlineEnv.networkAccessible = false ∧
      (listAvailablePods offlineEnv ["https://example.org/index.json"]
        (startOn freshRepo)).1 = []) :=
  ⟨⟨rfl, ((listAvailablePods_maps_index (scriptedEnv (fun _ _ => false) (some sampleIndex))
      ["https://example.org/index.json"] (startOn freshRepo)).1 rfl).trans (by decide)⟩,
    ⟨rfl, (listAvailablePods_maps_index offlineEnv ["https://example.org/index.json"]
      (startOn freshRepo)).2.1 rfl⟩⟩

/-- C7 at concrete inputs: a repository with an umbrella file and one
without. -/
theorem generateSubdirsPro_witness :
    ((∀ st f, (quietEnv.execute st ("git add " ++ f)).2.subdirsPro = st.files.subdirsPro) ∧
      (startOn umbrellaRepo).files.subdirsPro = some "TEMPLATE = subdirs\n" ∧
      (generateSubdirsPro quietEnv "/repo" (startOn umbrellaRepo)).files.subdirsPro =
        some "TEMPLATE = subdirs\n") ∧
    ((startOn freshRepo).files.subdirsPro = none ∧
      quietEnv.canOpen (startOn freshRepo) .subdirsPro = true ∧
      (generateSubdirsPro quietEnv "/repo" (startOn freshRepo)).files.subdirsPro =
        some "# Auto-generated by qt-pods.\n# This file should be put under version control.\nTEMPLATE = subdirs\ninclude(pods-subdirs.pri)\nSUBDIRS +=\n") ∧
    ((∀ st, quietEnv.canOpen st .subdirsPro = true) ∧
      (generateQmakeFiles quietEnv "/repo"
        (generateQmakeFiles quietEnv "/repo" (startOn freshRepo))).files.subdirsPro =
        (generateQmakeFiles quietEnv "/repo" (startOn freshRepo)).files.subdirsPro) :=
  ⟨⟨fun _ _ => rfl, rfl,
      ((generateSubdirsPro_creates_only_if_absent quietEnv "/repo" (startOn umbrellaRepo)
        (fun _ _ => rfl)).1 "TEMPLATE = subdirs\n" rfl).1⟩,
    ⟨rfl, rfl,
      ((generateSubdirsPro_creates_only_if_absent quietEnv "/repo" (startOn freshRepo)
        (fun _ _ => rfl)).2.1 rfl rfl).1⟩,
    ⟨fun _ => rfl,
      (generateSubdirsPro_creates_only_if_absent quietEnv "/repo" (startOn freshRepo)
        (fun _ _ => rfl)).2.2.2 (fun _ => rfl)⟩⟩

end PodManager
